import Mathlib

/-!
Verification of the natural-language specification of the BounceBall Q game
(`main.py`) against a shallow embedding of its code in Lean 4.

Modelling conventions, used throughout:

* pygame rectangles (`pygame.Rect`) are embedded as `PyRect` with integer
  fields; all rectangles built by the game have nonnegative width and height.
* pymunk shapes are embedded as `PolyShape` values (an identifier plus the
  vertex list the shape was built from); geometric queries of the physics
  library (`point_query(...).distance`, `shapes_collide`) are oracles passed
  as explicit function arguments, since their values are computed inside the
  physics engine.  Distances are modelled as exact rationals.
* Python's `for x in lst: ... lst.remove(x)` idiom (used by
  `draw_map_cycle`, `bonus_keep` and `marker_collide`) is embedded by
  `pythonForRemoveR`: `list.remove` deletes the first occurrence equal to
  the current element, after which the iteration index moves past the
  element that slid into the removed slot, so the element immediately
  following a removed one is never examined and always survives.
* Python machine floats are modelled as exact rationals (or exact
  scaled naturals for decimal numerals); the divergence is only visible
  beyond double precision and none of the claims depends on it.
-/

/-- Embedding of `pygame.Rect`: position and size, integer-valued.  The game
only ever builds rects with nonnegative `w` and `h` (tile rects are
`block_size` squares, the player rect is a `2*block_size` square). -/
structure PyRect where
  x : Int
  y : Int
  w : Int
  h : Int
deriving DecidableEq, Repr

/-- Embedding of `pygame.Rect.colliderect`: true when the two rectangles
overlap with positive area (touching edges do not collide). -/
def PyRect.colliderect (a b : PyRect) : Bool :=
  decide (a.x < b.x + b.w) && decide (a.y < b.y + b.h) &&
  decide (a.x + a.w > b.x) && decide (a.y + a.h > b.y)

/-- Embedding of `pygame.Rect.center`: `(x + w/2, y + h/2)` (the game's
rect sizes are nonnegative, so integer division direction is immaterial). -/
def PyRect.center (r : PyRect) : Int × Int :=
  (r.x + r.w / 2, r.y + r.h / 2)

/-- `pygame.Rect.topleft`. -/
def PyRect.topleft (r : PyRect) : Int × Int := (r.x, r.y)

/-- `pygame.Rect.topright`. -/
def PyRect.topright (r : PyRect) : Int × Int := (r.x + r.w, r.y)

/-- `pygame.Rect.bottomleft`. -/
def PyRect.bottomleft (r : PyRect) : Int × Int := (r.x, r.y + r.h)

/-- `pygame.Rect.bottomright`. -/
def PyRect.bottomright (r : PyRect) : Int × Int := (r.x + r.w, r.y + r.h)

/-- Embedding of the Python idiom `for s in lst: if cond(s): lst.remove(s)`
iterating over the very list it mutates (no copy is taken).  CPython
iterates by index; `remove` deletes the first occurrence equal to the
current element, the following element slides into its slot and the index
then moves past it, so the element immediately after a removed one is
skipped (kept without being examined).  `cond` is a pure function of the
element's value in every use in this file, for which this recursion is
exactly the CPython behaviour.  Returns `(kept, removed)`. -/
def pythonForRemoveR (cond : α → Bool) : List α → List α × List α
  | [] => ([], [])
  | [a] => if cond a then ([], [a]) else ([a], [])
  | a :: b :: rest =>
    if cond a then
      let p := pythonForRemoveR cond rest
      (b :: p.1, a :: p.2)
    else
      let p := pythonForRemoveR cond (b :: rest)
      (a :: p.1, p.2)

/-- Embedding of a pymunk static polygon shape as the game builds them: a
fresh object identity plus the vertex tuple passed to `pymunk.Poly`.
Distinct `pymunk.Poly` calls yield distinct objects, modelled by the `id`
field (allocated from a counter in the states below). -/
structure PolyShape where
  id : Nat
  vertices : List (Int × Int)
deriving DecidableEq, Repr

/-- The mutable state touched by `Map.draw_map_cycle`: `Map.shapes` (the
currently materialised wall collision shapes), the set of shapes added to
the pymunk space, and a counter allocating fresh shape identities. -/
structure MapCycleState where
  shapes : List PolyShape
  space : List PolyShape
  nextId : Nat
deriving DecidableEq, Repr

/-- Embedding of the body of `for w in self.wall_rects: ...` in
`Map.draw_map_cycle` (the two `pygame.draw.rect` calls are pure rendering
and have no embedded effect).  `d s p` is the oracle for
`s.point_query(p).distance`.  When the player rect overlaps `w` and either
`shapes` is empty or no current shape is at distance `< 25` from `w.center`,
a new static poly with vertices `(topleft, topright, bottomleft,
bottomright)` is added to the space and appended to `Map.shapes`; when the
player rect does not overlap `w`, the `for s in shapes: ...
self.shapes.remove(s); self.space.remove(s)` loop runs with
remove-during-iteration semantics (`pythonForRemoveR`), the removed shapes
also being removed from the space. -/
def draw_map_cycle_step (d : PolyShape → Int × Int → ℚ)
    (player_rect : PyRect) (st : MapCycleState) (w : PyRect) :
    MapCycleState :=
  if player_rect.colliderect w then
    if st.shapes.isEmpty then
      let shape : PolyShape :=
        ⟨st.nextId, [w.topleft, w.topright, w.bottomleft, w.bottomright]⟩
      { shapes := st.shapes ++ [shape], space := st.space ++ [shape],
        nextId := st.nextId + 1 }
    else
      if st.shapes.all (fun s => !decide (d s w.center < 25)) then
        let shape : PolyShape :=
          ⟨st.nextId, [w.topleft, w.topright, w.bottomleft, w.bottomright]⟩
        { shapes := st.shapes ++ [shape], space := st.space ++ [shape],
          nextId := st.nextId + 1 }
      else st
  else
    let p := pythonForRemoveR (fun s => decide (d s w.center < 25)) st.shapes
    { shapes := p.1,
      space := p.2.foldl (fun sp s => sp.erase s) st.space,
      nextId := st.nextId }

/-- Embedding of `Map.draw_map_cycle`: the loop body above folded over
`Map.wall_rects` (note that `shapes = self.shapes` in the source is an
alias of the same list object, so shapes added or removed while processing
earlier wall rects are visible when later wall rects are processed). -/
def draw_map_cycle (d : PolyShape → Int × Int → ℚ) (player_rect : PyRect)
    (wall_rects : List PyRect) (st : MapCycleState) : MapCycleState :=
  wall_rects.foldl (draw_map_cycle_step d player_rect) st

/-- The player state read and written by `Player.control`, plus the space
gravity it sets through the nested helper `w()`.  `impulses` logs the
`apply_impulse_at_world_point` calls as (impulse vector, world point)
pairs; `bodyVelocity` stands for `body.velocity`, which `control` never
assigns (jumping acts through impulses only). -/
structure CtrlState where
  motorRate : ℚ
  fly : Bool
  inwater : Bool
  gravity : ℚ × ℚ
  position : ℚ × ℚ
  bodyVelocity : ℚ × ℚ
  impulses : List ((ℚ × ℚ) × (ℚ × ℚ))
deriving DecidableEq, Repr

/-- `Player.velocity`, set in `Player.__init__` (line 122). -/
def player_velocity : ℚ := 35

/-- `Player.impulse`, set in `Player.__init__` (line 121):
`(0, -150000 * (2 / 5)) = (0, -60000.0)`. -/
def player_impulse : ℚ × ℚ := (0, -150000 * (2 / 5))

/-- The nested helper `w()` of `Player.control`: sets the space gravity to
`(0, 400)` and returns `True` when the player is in water, else sets it to
`(0, 900)` and returns `False`. -/
def wCall (st : CtrlState) : CtrlState × Bool :=
  if st.inwater then ({ st with gravity := (0, 400) }, true)
  else ({ st with gravity := (0, 900) }, false)

/-- The nested helper `j()` of `Player.control`: whether the ball's shape
collides with at least one shape of `Map.shapes`, `Map.blue_wall_block` or
`Map.red_wall_block` (`collide s` is the oracle for
`len(self.player.shapes_collide(s).points) != 0`). -/
def jCall (collide : PolyShape → Bool) (shapes blue_wall_block
    red_wall_block : List PolyShape) : Bool :=
  shapes.any collide || blue_wall_block.any collide ||
    red_wall_block.any collide

/-- `body.apply_impulse_at_world_point(imp, pt)`: logs the impulse. -/
def applyImpulse (st : CtrlState) (imp pt : ℚ × ℚ) : CtrlState :=
  { st with impulses := st.impulses ++ [(imp, pt)] }

/-- Embedding of `Player.control(direction, map_c)`.  `jColl` is the value
of the helper `j()` (see `jCall`).  Mirrors the source exactly: inside the
`j()` branch the `direction == 0 / 1 / -1` cases form an `if/elif` chain
(only the `1` and `-1` cases call `w()` and hence touch gravity), and
`direction == 2` is a separate `if` that calls `w()` and applies the jump
impulse at the body's position — full impulse plus `fly = True` out of
water, half impulse in water. -/
def Player.control (jColl : Bool) (direction : Int) (st : CtrlState) :
    CtrlState :=
  if jColl then
    let st1 :=
      if direction = 0 then { st with motorRate := 0 }
      else if direction = 1 then
        let pr := wCall st
        { pr.1 with motorRate :=
            if pr.2 then -player_velocity / 2 else -player_velocity }
      else if direction = -1 then
        let pr := wCall st
        { pr.1 with motorRate :=
            if pr.2 then player_velocity / 2 else player_velocity }
      else st
    if direction = 2 then
      let pr := wCall st1
      if pr.2 then
        applyImpulse pr.1 (player_impulse.1 / 2, player_impulse.2 / 2)
          pr.1.position
      else
        { applyImpulse pr.1 player_impulse pr.1.position with fly := true }
    else st1
  else if st.fly then
    { st with motorRate := -st.motorRate / 2, fly := false }
  else
    if direction = 1 then
      applyImpulse st (player_velocity * 25, 0) st.position
    else if direction = -1 then
      applyImpulse st (-(player_velocity * 25), 0) st.position
    else if direction = 2 then
      let pr := wCall st
      if pr.2 then
        applyImpulse pr.1 (player_impulse.1 / 2, player_impulse.2 / 2)
          pr.1.position
      else pr.1
    else st

/-- `pymunk.ShapeFilter.ALL_MASKS()`: all 32 category bits set. -/
def ALL_MASKS : Nat := 0xFFFFFFFF

/-- `REDMASK = pymunk.ShapeFilter.ALL_MASKS() ^ 1` (line 39): every
category except category 1 (red wall blocks). -/
def REDMASK : Nat := ALL_MASKS ^^^ 1

/-- `BLUEMASK = pymunk.ShapeFilter.ALL_MASKS() ^ 2` (line 40): every
category except category 2 (blue wall blocks). -/
def BLUEMASK : Nat := ALL_MASKS ^^^ 2

/-- pymunk shape-filter test: two shapes (with zero/distinct groups, as in
this game, which never sets a group) can collide exactly when each one's
categories intersect the other's mask. -/
def filterAccepts (aCategories aMask bCategories bMask : Nat) : Bool :=
  decide (aCategories &&& bMask ≠ 0) && decide (bCategories &&& aMask ≠ 0)

/-- RGBA colour tuples from the constants block of `main.py`. -/
def BLUE : Nat × Nat × Nat × Nat := (0, 0, 255, 255)

/-- `SCARLET = (187, 0, 0, 255)`. -/
def SCARLET : Nat × Nat × Nat × Nat := (187, 0, 0, 255)

/-- The state touched by `Map.marker_collide`: the two marker lists, the
ball shape's colour and its filter mask (`self.player.player.filter =
pymunk.ShapeFilter(mask=...)`; the ball's categories stay at the pymunk
default `ALL_MASKS`). -/
structure BallState where
  blue_marker : List (ℚ × ℚ)
  red_marker : List (ℚ × ℚ)
  ballColor : Nat × Nat × Nat × Nat
  ballMask : Nat
deriving DecidableEq, Repr

/-- Embedding of `Map.marker_collide` (lines 480–491).  `d m` is the oracle
for `self.player.player.point_query(m).distance`.  Each loop is the
remove-during-iteration idiom (`pythonForRemoveR`); every removal assigns
the same constant colour and filter, so the assignments collapse to `if
any removal happened`.  The blue loop runs first, then the red loop, so
when both loops remove a marker the red assignment wins. -/
def Map.marker_collide (d : ℚ × ℚ → ℚ) (st : BallState) : BallState :=
  let b := pythonForRemoveR (fun m => decide (d m < 1)) st.blue_marker
  let st1 : BallState :=
    { st with
      blue_marker := b.1,
      ballColor := if b.2.isEmpty then st.ballColor else BLUE,
      ballMask := if b.2.isEmpty then st.ballMask else BLUEMASK }
  let r := pythonForRemoveR (fun m => decide (d m < 1)) st1.red_marker
  { st1 with
    red_marker := r.1,
    ballColor := if r.2.isEmpty then st1.ballColor else SCARLET,
    ballMask := if r.2.isEmpty then st1.ballMask else REDMASK }

/-- A decimal numeral captured by the number group of the regex in
`alpha_sort_list` (`[0-9]+(?:[.][0-9]*)?` or `[.][0-9]+`), stored exactly:
its value is `num / 10 ^ scale`.  Python converts the captured text with
`float(...)`; the exact rational agrees with the double except beyond 15
significant digits. -/
structure DecNum where
  num : Nat
  scale : Nat
deriving DecidableEq, Repr

/-- Value comparison of two decimal numerals by cross-multiplication:
`a.num / 10^a.scale < b.num / 10^b.scale`. -/
def decLT (a b : DecNum) : Bool :=
  decide (a.num * 10 ^ b.scale < b.num * 10 ^ a.scale)

/-- A sort-key atom produced by `try_int` in `alpha_sort_list`: either the
piece kept as a string, or a float.  The float cases are split into finite
decimal numerals (`q`), infinities and `nan`, since `float(piece)` on a
digit-free text piece succeeds exactly for the `inf`/`infinity`/`nan`
literals. -/
inductive KeyAtom where
  | s (v : String)
  | q (v : DecNum)
  | inf (neg : Bool)
  | nan
deriving DecidableEq, Repr

/-- Rank used to totalise the comparison of key atoms.  Python orders the
numeric atoms as `-inf < finite < +inf` and raises `TypeError` on a
`str`/`float` comparison; `nan` comparisons always return `False`.  The
embedding totalises those last two cases (ranks `0` and `4`); the theorems
about sorting only apply them to keys whose atoms never meet a `nan` or a
cross-type comparison (see `keyGoodB`), where the embedded order coincides
with Python's. -/
def atomRank : KeyAtom → Nat
  | KeyAtom.nan => 0
  | KeyAtom.inf true => 1
  | KeyAtom.q _ => 2
  | KeyAtom.inf false => 3
  | KeyAtom.s _ => 4

/-- Python string `<`: lexicographic comparison by code point. -/
def charsLTb : List Char → List Char → Bool
  | [], [] => false
  | [], _ :: _ => true
  | _ :: _, [] => false
  | a :: as, b :: bs =>
    if a.toNat < b.toNat then true
    else if b.toNat < a.toNat then false
    else charsLTb as bs

/-- Same-rank value comparison of key atoms: numerals by value, strings
lexicographically; atoms of equal rank and no value (`±inf`, `nan`) are
equivalent. -/
def atomValLT : KeyAtom → KeyAtom → Bool
  | KeyAtom.q x, KeyAtom.q y => decLT x y
  | KeyAtom.s x, KeyAtom.s y => charsLTb x.data y.data
  | _, _ => false

/-- Strict comparison of key atoms (Python `<` on `try_int` results,
totalised across ranks as described at `atomRank`). -/
def atomLTb (a b : KeyAtom) : Bool :=
  if atomRank a < atomRank b then true
  else if atomRank b < atomRank a then false
  else atomValLT a b

/-- Python list `<=` on sort keys: elementwise first-difference
comparison, a proper prefix comparing smaller. -/
def keyLEb : List KeyAtom → List KeyAtom → Bool
  | [], _ => true
  | _ :: _, [] => false
  | a :: as, b :: bs =>
    if atomLTb a b then true
    else if atomLTb b a then false
    else keyLEb as bs

/-- The decimal-digit run starting a capture, read as a natural number. -/
def digitsToNat (cs : List Char) : Nat :=
  cs.foldl (fun n c => 10 * n + (c.toNat - 48)) 0

/-- The exact value of a captured numeral: `"10."` ↦ 10, `".5"` ↦ 5/10,
`"0.06"` ↦ 6/100. -/
def capToDec (cs : List Char) : DecNum :=
  let ip := cs.takeWhile Char.isDigit
  match cs.drop ip.length with
  | '.' :: fs => ⟨digitsToNat ip * 10 ^ fs.length + digitsToNat fs, fs.length⟩
  | _ => ⟨digitsToNat ip, 0⟩

/-- Matching the capture group `([0-9]+(?:[.][0-9]*)?|[.][0-9]+)` at the
start of `cs`: returns the captured characters and the number of
characters consumed (both alternatives are greedy and nothing follows the
group inside it, so no backtracking arises). -/
def matchNumLen (cs : List Char) : Option (List Char × Nat) :=
  let ds := cs.takeWhile Char.isDigit
  if ds.isEmpty then
    match cs with
    | '.' :: r2 =>
      let fs := r2.takeWhile Char.isDigit
      if fs.isEmpty then none else some ('.' :: fs, 1 + fs.length)
    | _ => none
  else
    match cs.drop ds.length with
    | '.' :: r2 =>
      let fs := r2.takeWhile Char.isDigit
      some (ds ++ '.' :: fs, ds.length + 1 + fs.length)
    | _ => some (ds, ds.length)

/-- Matching the whole separator pattern `[+-]?([0-9]+(?:[.][0-9]*)?|[.][0-9]+)`
at the start of `cs`: an optional sign is consumed but not captured (the
group excludes it), falling back to the signless alternative if no number
follows the sign. -/
def matchSepLen (cs : List Char) : Option (List Char × Nat) :=
  match cs with
  | c :: rest =>
    if c = '+' || c = '-' then
      match matchNumLen rest with
      | some pr => some (pr.1, pr.2 + 1)
      | none => matchNumLen cs
    else matchNumLen cs
  | [] => none

/-- A piece of the `re.split` result: surrounding text or a captured
numeral (with a capturing group, `re.split` interleaves the captures with
the text between matches, so the pieces alternate text, capture, text,
..., text). -/
inductive KeyTok where
  | text (v : String)
  | num (v : String)
deriving DecidableEq, Repr

/-- Left-to-right scan of `re.split(r'[+-]?([0-9]+(?:[.][0-9]*)?|[.][0-9]+)', s)`:
at each position try the separator pattern; on a match emit the text piece
accumulated so far and the captured group, else move one character into
the text accumulator.  The pattern never matches the empty string, so each
match consumes at least one character; `fuel` (initialised to the string
length, an upper bound on the characters still to scan) makes the
recursion structural, and the `fuel = 0` case is never reached from
`pyReSplitNum`. -/
def splitGoF : Nat → List Char → List Char → List KeyTok
  | _, [], acc => [KeyTok.text (String.mk acc)]
  | 0, c :: rest, acc => [KeyTok.text (String.mk (acc ++ c :: rest))]
  | fuel + 1, c :: rest, acc =>
    match matchSepLen (c :: rest) with
    | some pr =>
      KeyTok.text (String.mk acc) :: KeyTok.num (String.mk pr.1) ::
        splitGoF fuel ((c :: rest).drop pr.2) []
    | none => splitGoF fuel rest (acc ++ [c])

/-- `re.split` with the numeral pattern of `alpha_sort_list`. -/
def pyReSplitNum (s : String) : List KeyTok :=
  splitGoF s.data.length s.data []

/-- Whitespace stripped by Python's `float(...)` parser. -/
def isPySpace (c : Char) : Bool :=
  c = ' ' || c = '\t' || c = '\n' || c = '\r' || c = '\x0b' || c = '\x0c'

/-- Strip leading and trailing whitespace. -/
def stripWs (cs : List Char) : List Char :=
  ((cs.dropWhile isPySpace).reverse.dropWhile isPySpace).reverse

/-- `try_int` on a text piece of the split: `float(piece)` succeeds on a
digit-free string exactly for the (optionally signed, whitespace-padded,
case-insensitive) literals `inf`, `infinity` and `nan`, in which case the
float is used as the key atom; otherwise the `ValueError` is caught and
the piece itself is the atom.  Text pieces are digit-free because any
digit in `s` starts a separator match. -/
def textAtom (v : String) : KeyAtom :=
  let t := stripWs v.data
  let sn : Bool × List Char :=
    match t with
    | '-' :: r => (true, r)
    | '+' :: r => (false, r)
    | _ => (false, t)
  let low := sn.2.map Char.toLower
  if low = ("inf").data || low = ("infinity").data then KeyAtom.inf sn.1
  else if low = ("nan").data then KeyAtom.nan
  else KeyAtom.s v

/-- `try_int` applied to one piece of the split (captures always parse as
floats; their exact decimal value is kept). -/
def try_int_tok : KeyTok → KeyAtom
  | KeyTok.num v => KeyAtom.q (capToDec v.data)
  | KeyTok.text v => textAtom v

/-- The sort key of `alpha_sort_list`:
`[try_int(c) for c in re.split(r'[+-]?([0-9]+(?:[.][0-9]*)?|[.][0-9]+)', s)]`. -/
def key (s : String) : List KeyAtom :=
  (pyReSplitNum s).map try_int_tok

/-- A key on which the embedded comparison provably coincides with
Python's: text atoms at even positions, finite numerals at odd positions
(this is the shape every key has unless a text piece is an
`inf`/`infinity`/`nan` literal).  Two such keys are compared by Python
without `TypeError` and without `nan`. -/
def keyGoodB : Bool → List KeyAtom → Bool
  | _, [] => true
  | true, KeyAtom.s _ :: rest => keyGoodB false rest
  | false, KeyAtom.q _ :: rest => keyGoodB true rest
  | _, _ => false

/-- Embedding of `alpha_sort_list` (lines 43–52): `unsorted_list.sort(key=...)`
is Python's stable sort by the key above; a stable sort sorted with
respect to a total preorder is unique, so the stable `insertionSort` is an
exact model of Timsort's result. -/
def alpha_sort_list (l : List String) : List String :=
  List.insertionSort (fun a b => keyLEb (key a) (key b) = true) l

/-- Whether `pat` is an initial segment of `cs`. -/
def listBeginsWith : List Char → List Char → Bool
  | [], _ => true
  | _ :: _, [] => false
  | p :: ps, c :: cs => if p = c then listBeginsWith ps cs else false

/-- Embedding of `fnmatch.fnmatch(entry, 'map_*.bin')` on a case-sensitive
(POSIX) filesystem: the single `*` matches any, possibly empty, character
sequence, so the name matches exactly when it starts with `map_` and ends
with `.bin` (the two parts cannot overlap: a string shorter than 8
characters cannot satisfy both). -/
def fnmatch_map_bin (s : String) : Bool :=
  listBeginsWith ("map_").data s.data &&
    listBeginsWith (".bin").data.reverse s.data.reverse

/-- Embedding of `Map.load_map_list` (lines 264–270): the entries of the
`./maps/` directory (passed as the oracle `entries`, since the filesystem
is external) matching `map_*.bin` are appended to the current `map_list`
(empty at both call sites: `__init__` initialises it to `[]`,
`map_selection` resets it to `[]` just before calling) and the list is
sorted in place by `alpha_sort_list`. -/
def Map.load_map_list (entries : List String) (map_list : List String) :
    List String :=
  alpha_sort_list (map_list ++ entries.filter fnmatch_map_bin)

/-- Modelled from the spec: the claim's reading of the order — "maximal
runs of digits embedded in the strings compare numerically" — i.e. the
classic natural-sort key whose atoms are the maximal digit runs (as
numbers) and the text fragments between them.  Defined only to be compared
with the key the code actually uses. -/
inductive NatAtom where
  | txt (v : String)
  | run (v : Nat)
deriving DecidableEq, Repr

/-- Scanner for `naturalKey` (fuel-structural; fuel starts at the string
length and the `0` case is never reached). -/
def naturalKeyGo : Nat → List Char → List NatAtom
  | _, [] => []
  | 0, _ => []
  | fuel + 1, c :: cs =>
    if c.isDigit then
      let run := cs.takeWhile Char.isDigit
      NatAtom.run (digitsToNat (c :: run)) :: naturalKeyGo fuel (cs.drop run.length)
    else
      let txt := cs.takeWhile (fun x => !x.isDigit)
      NatAtom.txt (String.mk (c :: txt)) :: naturalKeyGo fuel (cs.drop txt.length)

/-- Modelled from the spec: the maximal-digit-run key (see `NatAtom`). -/
def naturalKey (s : String) : List NatAtom :=
  naturalKeyGo s.data.length s.data

/-- Python `str.split()` with no arguments: split on runs of whitespace,
discarding empty pieces. -/
def pySplitGo : List Char → List Char → List String
  | [], acc => if acc.isEmpty then [] else [String.mk acc]
  | c :: cs, acc =>
    if isPySpace c then
      if acc.isEmpty then pySplitGo cs []
      else String.mk acc :: pySplitGo cs []
    else pySplitGo cs (acc ++ [c])

/-- Python `str.split()` (the map file's contents split on whitespace:
one string per map row). -/
def pySplit (s : String) : List String := pySplitGo s.data []

/-- The `Map` and `Player` fields relevant to the level lifecycle
(`Map.clear`, `Map.load_map`, `App.death`, `Map.spikes_collide`).
`position`/`bodyVelocity` are the ball body's; `space` is the set of
shapes currently added to the pymunk space. -/
structure GameState where
  position : ℚ × ℚ
  bodyVelocity : ℚ × ℚ
  check_point : ℚ × ℚ
  level_score : Nat
  bonus_list : List (ℚ × ℚ)
  map : List String
  shapes : List PolyShape
  space : List PolyShape
  wall_rects : List PyRect
  spikes_points : List (Int × Int)
  spikes_shapes : List PolyShape
  check_points_list : List (ℚ × ℚ)
  boxes : List (Int × Int)
  water : List (Int × Int)
  blue_wall : List (Int × Int)
  blue_wall_block : List PolyShape
  blue_marker : List (ℚ × ℚ)
  red_wall : List (Int × Int)
  red_wall_block : List PolyShape
  red_marker : List (ℚ × ℚ)
  map_list : List String
  current_map : String
  motorRate : ℚ
  fly : Bool
  inwater : Bool
deriving DecidableEq, Repr

/-- Embedding of `App.death` (lines 813–814): the only statement is
`self.player.body.position = self.map.check_point`. -/
def App.death (st : GameState) : GameState :=
  { st with position := st.check_point }

/-- Embedding of `Map.spikes_collide` (lines 437–441): whether the ball
shape collides with at least one spike shape (`collide s` is the oracle
for `len(self.player.player.shapes_collide(s).points) != 0`). -/
def Map.spikes_collide (collide : PolyShape → Bool) (st : GameState) :
    Bool :=
  st.spikes_shapes.any collide

/-- Embedding of `Map.clear` (lines 272–296): every shape and body is
removed from the space, the per-level lists and the level score are reset,
and the class attributes `Map.map` and `Map.shapes` are emptied
(`check_point`, `check_points_list`, `map_list` and `current_map` are not
touched by `clear`). -/
def Map.clear (st : GameState) : GameState :=
  { st with
    space := [],
    map := [],
    shapes := [],
    spikes_points := [],
    spikes_shapes := [],
    boxes := [],
    blue_marker := [],
    bonus_list := [],
    blue_wall := [],
    blue_wall_block := [],
    red_wall_block := [],
    red_marker := [],
    red_wall := [],
    water := [],
    wall_rects := [],
    level_score := 0 }

/-- Embedding of `Map.load_map` (lines 298–305): `clear()` first, then the
file `./maps/<file>` is read as UTF-8 text (the contents are the oracle
`contents`, the filesystem being external) and `Map.map` is set to the
contents split on whitespace. -/
def Map.load_map (st : GameState) (contents : String) : GameState :=
  { Map.clear st with map := pySplit contents }

/-- Embedding of `Map.bonus_keep` (lines 453–457): the
remove-during-iteration loop over `bonus_list`; each removal increments
`level_score` by one.  `d b` is the oracle for
`self.player.player.point_query(b).distance`.  Returns the new
`(bonus_list, level_score)`. -/
def Map.bonus_keep (d : ℚ × ℚ → ℚ) (bonus_list : List (ℚ × ℚ))
    (level_score : Nat) : List (ℚ × ℚ) × Nat :=
  let p := pythonForRemoveR (fun b => decide (d b < 1)) bonus_list
  (p.1, level_score + p.2.length)

/-- The loop of `Map.water_collide`: returns `True` at the first water
tile whose rect collides with the player rect, else overwrites the flag
with `False` and continues; an empty list leaves the flag unchanged. -/
def water_collide_go (player_rect : PyRect) (block_size : Int) :
    List (Int × Int) → Bool → Bool
  | [], inwater => inwater
  | w :: ws, _ =>
    if player_rect.colliderect ⟨w.1, w.2, block_size, block_size⟩ then true
    else water_collide_go player_rect block_size ws false

/-- Embedding of `Map.water_collide` (lines 519–529): the player rect is
the axis-aligned square `Rect(p.x - radius, p.y - radius, 2*radius,
2*radius)` around the body position (coordinates modelled as integers; the
game's `radius` is `block_size / 5 = 10`), each water tile is a
`block_size` square, and the final value of `player.inwater` is returned. -/
def Map.water_collide (water : List (Int × Int)) (block_size : Int)
    (pos : Int × Int) (radius : Int) (inwater : Bool) : Bool :=
  water_collide_go
    ⟨pos.1 - radius, pos.2 - radius, radius * 2, radius * 2⟩
    block_size water inwater

/-- `App.caption` (line 542). -/
def App.caption : String := "BounceBall Q"

/-- `pygame.K_F1`. -/
def K_F1 : Nat := 1073741882

/-- `pygame.K_ESCAPE`. -/
def K_ESCAPE : Nat := 27

/-- `pygame.K_F2`. -/
def K_F2 : Nat := 1073741883

/-- `pygame.K_c`. -/
def K_c : Nat := 99

/-- `pygame.K_F5`. -/
def K_F5 : Nat := 1073741886

/-- The command string stored under `K_F1` in `App.shortcuts`. -/
def cmdF1 : String :=
  "self.fps_counter = True if not self.fps_counter else False; pygame.display.set_caption(App.caption)"

/-- The command string stored under `K_ESCAPE` in `App.shortcuts`. -/
def cmdEscape : String :=
  "self.running = False; self.pause = True; self.main_menu_run = True"

/-- The command string stored under `K_F2` in `App.shortcuts`. -/
def cmdF2 : String := "self.endgame_screen()"

/-- The command string stored under `K_c` in `App.shortcuts`. -/
def cmdC : String :=
  "self.player.camera_mode = True if not self.player.camera_mode else False"

/-- The command string stored under `K_F5` in `App.shortcuts`. -/
def cmdF5 : String := "self.map.pri()"

/-- The application state touched by the shortcut commands
(`shapesCount` is `len(self.map.shapes)`, read by `Map.pri`). -/
structure AppSt where
  fps_counter : Bool
  running : Bool
  pause : Bool
  main_menu_run : Bool
  camera_mode : Bool
  caption : String
  shapesCount : Nat
deriving DecidableEq, Repr

/-- Embedding of the `App.shortcuts` dictionary (lines 574–581). -/
def shortcuts : List (Nat × String) :=
  [(K_F1, cmdF1), (K_ESCAPE, cmdEscape), (K_F2, cmdF2), (K_c, cmdC),
   (K_F5, cmdF5)]

/-- Model of `exec(cmd)` on the command strings of `App.shortcuts`:
returns the state after execution together with whether an exception was
raised during it (the state then holds the mutations made before the
exception).  `endgameEff` abstracts `self.endgame_screen()`, a UI loop
whose effect is not further modelled.  `Map.pri` (the `F5` command) only
prints, but indexes `self.shapes[0]` and so raises `IndexError` exactly
when `Map.shapes` is empty.  The final catch-all is never reached from
`do_events`, which only executes strings found in the dictionary. -/
def execCmd (endgameEff : AppSt → AppSt × Bool) (cmd : String)
    (st : AppSt) : AppSt × Bool :=
  if cmd = cmdF1 then
    ({ st with fps_counter := !st.fps_counter, caption := App.caption },
      false)
  else if cmd = cmdEscape then
    ({ st with running := false, pause := true, main_menu_run := true },
      false)
  else if cmd = cmdF2 then endgameEff st
  else if cmd = cmdC then
    ({ st with camera_mode := !st.camera_mode }, false)
  else if cmd = cmdF5 then (st, decide (st.shapesCount = 0))
  else (st, true)

/-- Embedding of `App.do_events` (lines 910–920): for a key-down event,
look the key up in `shortcuts` (`cmd` stays `''` when absent), and when a
command was found run it under `try/except` — the exception, if any, is
printed and absorbed, and the state reached by the execution is kept. -/
def App.do_events (endgameEff : AppSt → AppSt × Bool) (key : Nat)
    (st : AppSt) : AppSt :=
  let cmd :=
    match shortcuts.find? (fun kv => decide (kv.1 = key)) with
    | some kv => kv.2
    | none => ""
  if cmd = "" then st
  else (execCmd endgameEff cmd st).1

/-- A concrete game state, used to instantiate theorems with hypotheses at
a specific input: one spike shape, one bonus within reach, a checkpoint
distinct from the current position. -/
def sampleGame : GameState where
  position := (75, 25)
  bodyVelocity := (3, 4)
  check_point := (25, 125)
  level_score := 2
  bonus_list := [(75, 85), (175, 85)]
  map := ["#..#", "#@w#", "####"]
  shapes := [⟨0, [(0, 0), (50, 0), (0, 50), (50, 50)]⟩]
  space := [⟨0, [(0, 0), (50, 0), (0, 50), (50, 50)]⟩, ⟨7, []⟩]
  wall_rects := [⟨0, 0, 50, 50⟩, ⟨150, 0, 50, 50⟩]
  spikes_points := [(100, 50)]
  spikes_shapes := [⟨7, []⟩]
  check_points_list := [(25, 125)]
  boxes := []
  water := [(0, 100)]
  blue_wall := []
  blue_wall_block := []
  blue_marker := [(25, 85)]
  red_wall := []
  red_wall_block := []
  red_marker := []
  map_list := ["map_1.bin", "map_2.bin"]
  current_map := "map_1.bin"
  motorRate := 5
  fly := false
  inwater := false

/-! ## Theorems -/

theorem pythonForRemoveR_kept_sublist (cond : α → Bool) (l : List α) :
    (pythonForRemoveR cond l).1.Sublist l := by
  induction l using pythonForRemoveR.induct cond with
  | case1 => simp [pythonForRemoveR]
  | case2 a h =>
    simp only [pythonForRemoveR, h, if_true]
    exact List.nil_sublist _
  | case3 a h =>
    simp only [pythonForRemoveR, h, if_false, Bool.false_eq_true]
    simp
  | case4 a b rest h ih =>
    simp only [pythonForRemoveR, h, if_true]
    exact List.Sublist.cons _ (List.Sublist.cons₂ _ ih)
  | case5 a b rest h ih =>
    simp only [pythonForRemoveR, h]
    simp only [Bool.false_eq_true, if_false]
    exact List.Sublist.cons₂ _ ih

theorem pythonForRemoveR_removed_cond (cond : α → Bool) (l : List α) :
    ∀ x ∈ (pythonForRemoveR cond l).2, cond x = true := by
  induction l using pythonForRemoveR.induct cond with
  | case1 => simp [pythonForRemoveR]
  | case2 a h => simp [pythonForRemoveR, h]
  | case3 a h => simp [pythonForRemoveR, h]
  | case4 a b rest h ih =>
    simp only [pythonForRemoveR, h, if_true]
    intro x hx
    rcases List.mem_cons.1 hx with rfl | hx
    · exact h
    · exact ih x hx
  | case5 a b rest h ih =>
    simp only [pythonForRemoveR, h, Bool.false_eq_true, if_false]
    exact ih

theorem pythonForRemoveR_kept_of_not_cond (cond : α → Bool) (l : List α) :
    ∀ x ∈ l, cond x = false → x ∈ (pythonForRemoveR cond l).1 := by
  induction l using pythonForRemoveR.induct cond with
  | case1 => simp
  | case2 a h => simp_all [pythonForRemoveR]
  | case3 a h => simp_all [pythonForRemoveR]
  | case4 a b rest h ih =>
    intro x hx hcx
    simp only [pythonForRemoveR, h, if_true]
    rcases List.mem_cons.1 hx with rfl | hx
    · rw [h] at hcx; cases hcx
    · rcases List.mem_cons.1 hx with rfl | hx
      · exact List.mem_cons_self _ _
      · exact List.mem_cons_of_mem _ (ih x hx hcx)
  | case5 a b rest h ih =>
    intro x hx hcx
    simp only [pythonForRemoveR, h, Bool.false_eq_true, if_false]
    rcases List.mem_cons.1 hx with rfl | hx
    · exact List.mem_cons_self _ _
    · exact List.mem_cons_of_mem _ (ih x hx hcx)

theorem pythonForRemoveR_length (cond : α → Bool) (l : List α) :
    (pythonForRemoveR cond l).1.length + (pythonForRemoveR cond l).2.length
      = l.length := by
  induction l using pythonForRemoveR.induct cond with
  | case1 => simp [pythonForRemoveR]
  | case2 a h => simp [pythonForRemoveR, h]
  | case3 a h => simp [pythonForRemoveR, h]
  | case4 a b rest h ih =>
    simp only [pythonForRemoveR, h, if_true, List.length_cons]
    simp only [List.length_cons] at ih
    omega
  | case5 a b rest h ih =>
    simp only [pythonForRemoveR, h, Bool.false_eq_true, if_false,
      List.length_cons]
    simp only [List.length_cons] at ih
    omega

theorem pythonForRemoveR_perm (cond : α → Bool) (l : List α) :
    ((pythonForRemoveR cond l).1 ++ (pythonForRemoveR cond l).2).Perm l := by
  induction l using pythonForRemoveR.induct cond with
  | case1 => simp [pythonForRemoveR]
  | case2 a h => simp [pythonForRemoveR, h]
  | case3 a h => simp [pythonForRemoveR, h]
  | case4 a b rest h ih =>
    simp only [pythonForRemoveR, h, if_true, List.cons_append]
    refine List.Perm.trans (List.Perm.cons b List.perm_middle) ?_
    exact List.Perm.trans (List.Perm.swap a b _)
      (List.Perm.cons a (List.Perm.cons b ih))
  | case5 a b rest h ih =>
    simp only [pythonForRemoveR, h, Bool.false_eq_true, if_false,
      List.cons_append]
    exact List.Perm.cons _ ih

theorem pythonForRemoveR_find?_removed (cond : α → Bool) (l : List α)
    (x : α) (hf : l.find? cond = some x) :
    x ∈ (pythonForRemoveR cond l).2 := by
  induction l using pythonForRemoveR.induct cond with
  | case1 => simp at hf
  | case2 a h =>
    rw [List.find?_cons_of_pos _ h] at hf
    cases hf
    simp [pythonForRemoveR, h]
  | case3 a h =>
    rw [List.find?_cons_of_neg _ (by simp [h])] at hf
    simp at hf
  | case4 a b rest h ih =>
    rw [List.find?_cons_of_pos _ h] at hf
    cases hf
    simp [pythonForRemoveR, h]
  | case5 a b rest h ih =>
    rw [List.find?_cons_of_neg _ (by simp [h])] at hf
    simp only [pythonForRemoveR, h, Bool.false_eq_true, if_false]
    exact ih hf

theorem pythonForRemoveR_exists_removed (cond : α → Bool) (l : List α)
    (hx : ∃ x ∈ l, cond x = true) :
    (pythonForRemoveR cond l).2 ≠ [] := by
  obtain ⟨x, hxl, hcx⟩ := hx
  obtain ⟨y, hy⟩ := List.find?_isSome.2 ⟨x, hxl, hcx⟩ |> Option.isSome_iff_exists.1
  have := pythonForRemoveR_find?_removed cond l y hy
  intro hemp
  rw [hemp] at this
  exact List.not_mem_nil _ this

theorem pythonForRemoveR_no_removals (cond : α → Bool) (l : List α)
    (h : ∀ x ∈ l, cond x = false) :
    pythonForRemoveR cond l = (l, []) := by
  induction l using pythonForRemoveR.induct cond with
  | case1 => simp [pythonForRemoveR]
  | case2 a hc =>
    have := h a (List.mem_singleton_self a)
    rw [hc] at this
    cases this
  | case3 a hc => simp [pythonForRemoveR, hc]
  | case4 a b rest hc ih =>
    have := h a (List.mem_cons_self _ _)
    rw [hc] at this
    cases this
  | case5 a b rest hc ih =>
    simp only [pythonForRemoveR, hc, Bool.false_eq_true, if_false]
    rw [ih (fun x hx => h x (List.mem_cons_of_mem _ hx))]

theorem pythonForRemoveR_nodup_removed_not_kept (cond : α → Bool)
    (l : List α) (hnd : l.Nodup) (x : α)
    (hx : x ∈ (pythonForRemoveR cond l).2) :
    x ∉ (pythonForRemoveR cond l).1 := by
  have hperm := pythonForRemoveR_perm cond l
  have hnd2 : ((pythonForRemoveR cond l).1 ++ (pythonForRemoveR cond l).2).Nodup :=
    hperm.nodup_iff.2 hnd
  rw [List.nodup_append] at hnd2
  exact fun hk => hnd2.2.2 hk hx

/-- C5: on a game-loop iteration where the ball's shape collides with a
spike shape, `death()` moves the ball's body to the saved checkpoint
`Map.check_point` and changes nothing else — every other `Map`/`Player`
field of the state (score, bonus list, loaded map, collision shapes,
space, checkpoint, water, walls, markers, map list, motor, flags) is
untouched. -/
theorem death_spec (collide : PolyShape → Bool) (st : GameState)
    (_hspike : Map.spikes_collide collide st = true) :
    (App.death st).position = st.check_point ∧
    (App.death st).bodyVelocity = st.bodyVelocity ∧
    (App.death st).check_point = st.check_point ∧
    (App.death st).level_score = st.level_score ∧
    (App.death st).bonus_list = st.bonus_list ∧
    (App.death st).map = st.map ∧
    (App.death st).shapes = st.shapes ∧
    (App.death st).space = st.space ∧
    (App.death st).wall_rects = st.wall_rects ∧
    (App.death st).spikes_points = st.spikes_points ∧
    (App.death st).spikes_shapes = st.spikes_shapes ∧
    (App.death st).check_points_list = st.check_points_list ∧
    (App.death st).boxes = st.boxes ∧
    (App.death st).water = st.water ∧
    (App.death st).blue_wall = st.blue_wall ∧
    (App.death st).blue_wall_block = st.blue_wall_block ∧
    (App.death st).blue_marker = st.blue_marker ∧
    (App.death st).red_wall = st.red_wall ∧
    (App.death st).red_wall_block = st.red_wall_block ∧
    (App.death st).red_marker = st.red_marker ∧
    (App.death st).map_list = st.map_list ∧
    (App.death st).current_map = st.current_map ∧
    (App.death st).motorRate = st.motorRate ∧
    (App.death st).fly = st.fly ∧
    (App.death st).inwater = st.inwater := by
  simp [App.death]

/-- Witness for `death_spec` at a concrete colliding state. -/
theorem death_spec_witness :
    Map.spikes_collide (fun _ => true) sampleGame = true ∧
    (App.death sampleGame).position = sampleGame.check_point ∧
    (App.death sampleGame).level_score = sampleGame.level_score := by
  refine ⟨by decide, ?_, ?_⟩
  · exact (death_spec (fun _ => true) sampleGame (by decide)).1
  · exact (death_spec (fun _ => true) sampleGame (by decide)).2.2.2.1

/-- C8: `Map.bonus_keep` conserves `level_score + len(bonus_list)` (the
score increases by exactly the number of removed bonuses), the resulting
bonus list is a subsequence of the original, and every removed bonus was
at point-query distance `< 1` from the ball. -/
theorem bonus_keep_spec (d : ℚ × ℚ → ℚ) (l : List (ℚ × ℚ)) (score : Nat) :
    (Map.bonus_keep d l score).2 + (Map.bonus_keep d l score).1.length
        = score + l.length ∧
    (Map.bonus_keep d l score).1.Sublist l ∧
    (∀ b ∈ l, b ∉ (Map.bonus_keep d l score).1 → d b < 1) := by
  refine ⟨?_, ?_, ?_⟩
  · have := pythonForRemoveR_length (fun b => decide (d b < 1)) l
    simp only [Map.bonus_keep]
    omega
  · exact pythonForRemoveR_kept_sublist _ l
  · intro b hb hnk
    by_contra hlt
    exact hnk (pythonForRemoveR_kept_of_not_cond _ l b hb (by
      simp only [decide_eq_false_iff_not]
      exact hlt))

/-- Witness for `bonus_keep_spec`: the ball sits on the first of two
bonuses. -/
theorem bonus_keep_spec_witness :
    (Map.bonus_keep (fun b => if b = (75, 85) then 0 else 9)
        [(75, 85), (175, 85)] 2).2 +
      (Map.bonus_keep (fun b => if b = (75, 85) then 0 else 9)
        [(75, 85), (175, 85)] 2).1.length = 2 + 2 ∧
    (Map.bonus_keep (fun b => if b = (75, 85) then 0 else 9)
        [(75, 85), (175, 85)] 2).1.Sublist [(75, 85), (175, 85)] := by
  have h := bonus_keep_spec (fun b => if b = (75, 85) then 0 else 9)
    [(75, 85), (175, 85)] 2
  exact ⟨by simpa using h.1, h.2.1⟩

theorem water_collide_go_eq (player_rect : PyRect) (block_size : Int)
    (l : List (Int × Int)) (iw : Bool) :
    water_collide_go player_rect block_size l iw =
      if l.isEmpty then iw
      else l.any
        (fun w => player_rect.colliderect ⟨w.1, w.2, block_size, block_size⟩) := by
  induction l generalizing iw with
  | nil => simp [water_collide_go]
  | cons w ws ih =>
    cases hc : player_rect.colliderect ⟨w.1, w.2, block_size, block_size⟩ with
    | true => simp [water_collide_go, hc]
    | false =>
      simp only [water_collide_go, hc, Bool.false_eq_true, if_false, ih false,
        List.any_cons]
      cases ws <;> simp [hc]

/-- C10: with a non-empty water list, `Map.water_collide` leaves
`player.inwater` true exactly when some water tile's `block_size` square
overlaps the axis-aligned square of side `2 * radius` centred on the
body's position; with an empty water list the flag is unchanged. -/
theorem water_collide_spec (water : List (Int × Int)) (block_size : Int)
    (pos : Int × Int) (radius : Int) (inwater : Bool) :
    (water ≠ [] →
      (Map.water_collide water block_size pos radius inwater = true ↔
        ∃ w ∈ water,
          (PyRect.mk (pos.1 - radius) (pos.2 - radius) (radius * 2)
            (radius * 2)).colliderect
              ⟨w.1, w.2, block_size, block_size⟩ = true)) ∧
    (water = [] →
      Map.water_collide water block_size pos radius inwater = inwater) := by
  constructor
  · intro hne
    rw [Map.water_collide, water_collide_go_eq, if_neg (by simpa using hne)]
    simp [List.any_eq_true]
  · rintro rfl
    rfl

/-- Witness for `water_collide_spec`: a ball of radius 10 at (40, 20)
overlapping the water tile at (0, 0). -/
theorem water_collide_spec_witness :
    Map.water_collide [(0, 0)] 50 (40, 20) 10 false = true ∧
    ([((0 : Int), (0 : Int))] ≠ ([] : List (Int × Int))) := by
  refine ⟨?_, by decide⟩
  exact ((water_collide_spec [(0, 0)] 50 (40, 20) 10 false).1
    (by decide)).2 ⟨(0, 0), by decide, by decide⟩

/-- C6: `load_map_list` collects exactly the `./maps/` entries matching
`map_*.bin` into `Map.map_list` (both call sites pass an empty previous
list), and `load_map` clears the previous level's shapes and lists first
(shapes, space, spikes, bonuses, walls, markers, water, score) and sets
the tile grid `Map.map` to the UTF-8 file contents split on whitespace,
one string per map row. -/
theorem load_map_spec (entries : List String) (st : GameState)
    (contents : String) :
    (∀ s, s ∈ Map.load_map_list entries [] ↔
      (s ∈ entries ∧ fnmatch_map_bin s = true)) ∧
    (Map.load_map st contents).map = pySplit contents ∧
    (Map.load_map st contents).shapes = [] ∧
    (Map.load_map st contents).space = [] ∧
    (Map.load_map st contents).bonus_list = [] ∧
    (Map.load_map st contents).spikes_points = [] ∧
    (Map.load_map st contents).spikes_shapes = [] ∧
    (Map.load_map st contents).wall_rects = [] ∧
    (Map.load_map st contents).water = [] ∧
    (Map.load_map st contents).boxes = [] ∧
    (Map.load_map st contents).blue_wall = [] ∧
    (Map.load_map st contents).blue_wall_block = [] ∧
    (Map.load_map st contents).blue_marker = [] ∧
    (Map.load_map st contents).red_wall = [] ∧
    (Map.load_map st contents).red_wall_block = [] ∧
    (Map.load_map st contents).red_marker = [] ∧
    (Map.load_map st contents).level_score = 0 := by
  refine ⟨?_, ?_, rfl, rfl, rfl, rfl, rfl, rfl, rfl, rfl, rfl, rfl, rfl,
    rfl, rfl, rfl, rfl⟩
  · intro s
    have hp := List.perm_insertionSort
      (fun a b => keyLEb (key a) (key b) = true)
      ([] ++ entries.filter fnmatch_map_bin)
    rw [Map.load_map_list, alpha_sort_list, hp.mem_iff]
    simp [List.mem_filter]
  · rfl

/-- C7: keyboard shortcuts dispatch by `exec` of string commands: an
unknown key leaves the state unchanged (no command is executed), each
known key runs the string stored for it in `shortcuts` (toggling the FPS
counter, opening the pause menu, running the endgame screen, toggling the
camera, printing diagnostics), and an exception raised by the executed
command — such as `Map.pri`'s `IndexError` when `Map.shapes` is empty —
is caught inside `do_events` and never propagated: the caller receives
the state the execution had reached. -/
theorem do_events_spec (endgameEff : AppSt → AppSt × Bool) (k : Nat)
    (st : AppSt) :
    ((shortcuts.find? (fun kv => decide (kv.1 = k))) = none →
      App.do_events endgameEff k st = st) ∧
    App.do_events endgameEff K_F1 st
      = { st with fps_counter := !st.fps_counter, caption := App.caption } ∧
    App.do_events endgameEff K_ESCAPE st
      = { st with running := false, pause := true, main_menu_run := true } ∧
    App.do_events endgameEff K_c st
      = { st with camera_mode := !st.camera_mode } ∧
    App.do_events endgameEff K_F2 st = (endgameEff st).1 ∧
    (st.shapesCount = 0 →
      App.do_events endgameEff K_F5 st = st ∧
      (execCmd endgameEff cmdF5 st).2 = true) := by
  refine ⟨?_, rfl, rfl, rfl, rfl, ?_⟩
  · intro h
    simp [App.do_events, h]
  · intro h
    refine ⟨rfl, ?_⟩
    simp [execCmd, cmdF5, cmdF1, cmdEscape, cmdF2, cmdC, h]

/-- Witness for `do_events_spec`: key 12345 is not a shortcut and leaves a
concrete state unchanged; `F5` with no shapes raises and is caught. -/
theorem do_events_spec_witness :
    (shortcuts.find?
        (fun kv => decide (kv.1 = 12345))) = none ∧
    App.do_events (fun s => (s, false)) 12345
        ⟨false, true, false, true, false, "c", 0⟩ =
      ⟨false, true, false, true, false, "c", 0⟩ ∧
    (execCmd (fun s => (s, false)) cmdF5
        ⟨false, true, false, true, false, "c", 0⟩).2 = true := by
  refine ⟨by decide, ?_, ?_⟩
  · exact (do_events_spec (fun s => (s, false)) 12345
      ⟨false, true, false, true, false, "c", 0⟩).1 (by decide)
  · exact ((do_events_spec (fun s => (s, false)) 12345
      ⟨false, true, false, true, false, "c", 0⟩).2.2.2.2.2 rfl).2

/-- C2: jumping is impulse-based: with the jump direction (2) while the
ball touches a map, blue-wall or red-wall shape, `control` applies an
impulse at the body's current position — `(0, -60000)` with `fly = True`
out of water, half of it `(0, -30000)` in water — and never assigns the
body's velocity directly. -/
theorem control_jump_spec (collide : PolyShape → Bool)
    (shapes blue_wall_block red_wall_block : List PolyShape)
    (st : CtrlState)
    (hj : jCall collide shapes blue_wall_block red_wall_block = true) :
    (Player.control (jCall collide shapes blue_wall_block red_wall_block)
        2 st).impulses =
      st.impulses ++
        [(if st.inwater then ((0 : ℚ), (-30000 : ℚ)) else (0, -60000),
          st.position)] ∧
    (Player.control (jCall collide shapes blue_wall_block red_wall_block)
        2 st).fly = (if st.inwater then st.fly else true) ∧
    (Player.control (jCall collide shapes blue_wall_block red_wall_block)
        2 st).bodyVelocity = st.bodyVelocity := by
  rw [hj]
  cases hiw : st.inwater <;>
    refine ⟨?_, ?_, ?_⟩ <;>
      norm_num [Player.control, wCall, applyImpulse, player_impulse, hiw]

/-- Witness for `control_jump_spec`: a grounded jump out of water. -/
theorem control_jump_spec_witness :
    jCall (fun _ => true) [⟨0, []⟩] [] [] = true ∧
    (Player.control (jCall (fun _ => true) [⟨0, []⟩] [] []) 2
        ⟨0, false, false, (0, 900), (7, 8), (1, 2), []⟩).impulses =
      [((0, -60000), (7, 8))] ∧
    (Player.control (jCall (fun _ => true) [⟨0, []⟩] [] []) 2
        ⟨0, false, false, (0, 900), (7, 8), (1, 2), []⟩).fly = true := by
  refine ⟨by decide, ?_, ?_⟩
  · exact (control_jump_spec (fun _ => true) [⟨0, []⟩] [] []
      ⟨0, false, false, (0, 900), (7, 8), (1, 2), []⟩ (by decide)).1
  · exact (control_jump_spec (fun _ => true) [⟨0, []⟩] [] []
      ⟨0, false, false, (0, 900), (7, 8), (1, 2), []⟩ (by decide)).2.1

/-- Counterexample to C3 as stated: a call with direction 0 (no key)
while grounded and in water does not touch gravity at all (the helper
`w()` only runs for directions 1, -1 and 2), so gravity stays `(0, 900)`
although the ball is in water, where the claim requires `(0, 400)`. -/
theorem control_gravity_cex :
    (Player.control true 0
        ⟨5, false, true, (0, 900), (0, 0), (0, 0), []⟩).motorRate = 0 ∧
    (Player.control true 0
        ⟨5, false, true, (0, 900), (0, 0), (0, 0), []⟩).gravity = (0, 900) ∧
    (⟨5, false, true, (0, 900), (0, 0), (0, 0), []⟩ : CtrlState).inwater
      = true := by
  refine ⟨by decide, by decide, by decide⟩

/-- C3 (amended): rolling is motor-driven: while the ball touches a map,
blue-wall or red-wall shape, direction 1 sets the motor rate to `-35`
(`-35/2 = -17.5` in water), direction -1 to `+35` (`+17.5` in water), and
direction 0 to `0`; gravity is set to `(0, 400)` in water and `(0, 900)`
otherwise by the direction 1 and -1 calls, while a direction 0 call leaves
gravity unchanged. -/
theorem control_roll_spec (collide : PolyShape → Bool)
    (shapes blue_wall_block red_wall_block : List PolyShape)
    (st : CtrlState)
    (hj : jCall collide shapes blue_wall_block red_wall_block = true) :
    ((Player.control (jCall collide shapes blue_wall_block red_wall_block)
          1 st).motorRate = (if st.inwater then -(35 : ℚ) / 2 else -35) ∧
      (Player.control (jCall collide shapes blue_wall_block red_wall_block)
          1 st).gravity =
        (if st.inwater then ((0 : ℚ), (400 : ℚ)) else (0, 900))) ∧
    ((Player.control (jCall collide shapes blue_wall_block red_wall_block)
          (-1) st).motorRate = (if st.inwater then (35 : ℚ) / 2 else 35) ∧
      (Player.control (jCall collide shapes blue_wall_block red_wall_block)
          (-1) st).gravity =
        (if st.inwater then ((0 : ℚ), (400 : ℚ)) else (0, 900))) ∧
    ((Player.control (jCall collide shapes blue_wall_block red_wall_block)
          0 st).motorRate = 0 ∧
      (Player.control (jCall collide shapes blue_wall_block red_wall_block)
          0 st).gravity = st.gravity) := by
  rw [hj]
  cases hiw : st.inwater <;>
    refine ⟨⟨?_, ?_⟩, ⟨?_, ?_⟩, ?_, ?_⟩ <;>
      norm_num [Player.control, wCall, player_velocity, hiw]

/-- Witness for `control_roll_spec`: rolling right in water. -/
theorem control_roll_spec_witness :
    jCall (fun _ => true) [⟨0, []⟩] [] [] = true ∧
    (Player.control (jCall (fun _ => true) [⟨0, []⟩] [] []) 1
        ⟨0, false, true, (0, 900), (7, 8), (1, 2), []⟩).gravity
      = (0, 400) := by
  refine ⟨by decide, ?_⟩
  have h := (control_roll_spec (fun _ => true) [⟨0, []⟩] [] []
    ⟨0, false, true, (0, 900), (7, 8), (1, 2), []⟩ (by decide)).1.2
  simpa using h

theorem marker_collide_eq (d : ℚ × ℚ → ℚ) (st : BallState) :
    Map.marker_collide d st =
      { blue_marker :=
          (pythonForRemoveR (fun m => decide (d m < 1)) st.blue_marker).1,
        red_marker :=
          (pythonForRemoveR (fun m => decide (d m < 1)) st.red_marker).1,
        ballColor :=
          if (pythonForRemoveR (fun m => decide (d m < 1))
              st.red_marker).2.isEmpty then
            (if (pythonForRemoveR (fun m => decide (d m < 1))
                st.blue_marker).2.isEmpty then st.ballColor else BLUE)
          else SCARLET,
        ballMask :=
          if (pythonForRemoveR (fun m => decide (d m < 1))
              st.red_marker).2.isEmpty then
            (if (pythonForRemoveR (fun m => decide (d m < 1))
                st.blue_marker).2.isEmpty then st.ballMask else BLUEMASK)
          else REDMASK } := rfl

/-- C4: colored gates work by shape-filter masks.  When the blue loop of
`marker_collide` removes a marker (some blue marker is at point-query
distance `< 1`; the first such marker is always removed) and no red marker
is in reach, the ball is coloured blue and its filter mask becomes
`BLUEMASK` (all categories except 2), under which the ball no longer
collides with blue wall blocks (category 2) but still collides with red
wall blocks (category 1); symmetrically for red markers (whose loop runs
second, so its assignment wins when both colours are touched).  Every
removed marker was within distance `< 1`. -/
theorem marker_collide_spec (d : ℚ × ℚ → ℚ) (st : BallState) :
    ((∃ m ∈ st.blue_marker, d m < 1) →
      (∀ m ∈ st.red_marker, ¬(d m < 1)) →
      (Map.marker_collide d st).ballMask = BLUEMASK ∧
      (Map.marker_collide d st).ballColor = BLUE) ∧
    ((∃ m ∈ st.red_marker, d m < 1) →
      (Map.marker_collide d st).ballMask = REDMASK ∧
      (Map.marker_collide d st).ballColor = SCARLET) ∧
    (st.blue_marker.Nodup →
      ∀ x, st.blue_marker.find? (fun m => decide (d m < 1)) = some x →
        x ∉ (Map.marker_collide d st).blue_marker) ∧
    (st.red_marker.Nodup →
      ∀ x, st.red_marker.find? (fun m => decide (d m < 1)) = some x →
        x ∉ (Map.marker_collide d st).red_marker) ∧
    (∀ m ∈ st.blue_marker,
      m ∉ (Map.marker_collide d st).blue_marker → d m < 1) ∧
    (∀ m ∈ st.red_marker,
      m ∉ (Map.marker_collide d st).red_marker → d m < 1) ∧
    (filterAccepts ALL_MASKS BLUEMASK 2 ALL_MASKS = false ∧
      filterAccepts ALL_MASKS BLUEMASK 1 ALL_MASKS = true ∧
      filterAccepts ALL_MASKS REDMASK 1 ALL_MASKS = false ∧
      filterAccepts ALL_MASKS REDMASK 2 ALL_MASKS = true) := by
  have hmask := fun m => decide (d m < 1)
  refine ⟨?_, ?_, ?_, ?_, ?_, ?_, by decide⟩
  · intro hblue hred
    have hb2 : (pythonForRemoveR (fun m => decide (d m < 1))
        st.blue_marker).2 ≠ [] := by
      refine pythonForRemoveR_exists_removed _ _ ?_
      obtain ⟨m, hm, hdm⟩ := hblue
      exact ⟨m, hm, by simpa using hdm⟩
    have hbe : (pythonForRemoveR (fun m => decide (d m < 1))
        st.blue_marker).2.isEmpty = false := by
      cases h2 : (pythonForRemoveR (fun m => decide (d m < 1))
          st.blue_marker).2 with
      | nil => exact absurd h2 hb2
      | cons x xs => rfl
    have hr : pythonForRemoveR (fun m => decide (d m < 1)) st.red_marker
        = (st.red_marker, []) := by
      refine pythonForRemoveR_no_removals _ _ ?_
      intro m hm
      simpa using hred m hm
    rw [marker_collide_eq, hr]
    simp [hbe]
  · intro hred
    have hr2 : (pythonForRemoveR (fun m => decide (d m < 1))
        st.red_marker).2 ≠ [] := by
      refine pythonForRemoveR_exists_removed _ _ ?_
      obtain ⟨m, hm, hdm⟩ := hred
      exact ⟨m, hm, by simpa using hdm⟩
    have hre : (pythonForRemoveR (fun m => decide (d m < 1))
        st.red_marker).2.isEmpty = false := by
      cases h2 : (pythonForRemoveR (fun m => decide (d m < 1))
          st.red_marker).2 with
      | nil => exact absurd h2 hr2
      | cons x xs => rfl
    rw [marker_collide_eq]
    simp [hre]
  · intro hnd x hfind
    rw [marker_collide_eq]
    exact pythonForRemoveR_nodup_removed_not_kept _ _ hnd x
      (pythonForRemoveR_find?_removed _ _ x hfind)
  · intro hnd x hfind
    rw [marker_collide_eq]
    exact pythonForRemoveR_nodup_removed_not_kept _ _ hnd x
      (pythonForRemoveR_find?_removed _ _ x hfind)
  · intro m hm hnk
    rw [marker_collide_eq] at hnk
    by_contra hlt
    exact hnk (pythonForRemoveR_kept_of_not_cond _ _ m hm (by simpa using hlt))
  · intro m hm hnk
    rw [marker_collide_eq] at hnk
    by_contra hlt
    exact hnk (pythonForRemoveR_kept_of_not_cond _ _ m hm (by simpa using hlt))

/-- Witness for `marker_collide_spec`: the ball touches the only blue
marker; the filter becomes `BLUEMASK` and the ball turns blue. -/
theorem marker_collide_spec_witness :
    (Map.marker_collide (fun m => if m = (25, 85) then 0 else 9)
        ⟨[(25, 85)], [], (187, 0, 0, 255), REDMASK⟩).ballMask = BLUEMASK ∧
    (Map.marker_collide (fun m => if m = (25, 85) then 0 else 9)
        ⟨[(25, 85)], [], (187, 0, 0, 255), REDMASK⟩).ballColor = BLUE := by
  have h := (marker_collide_spec (fun m => if m = (25, 85) then 0 else 9)
    ⟨[(25, 85)], [], (187, 0, 0, 255), REDMASK⟩).1
    ⟨(25, 85), by decide, by norm_num⟩ (by simp)
  exact h

/-- C1 (amended): for each wall rect `w` processed by `draw_map_cycle`,
with `Map.shapes` as it stands when `w` is processed: if the player rect
overlaps `w`, a new static polygon with `w`'s four corners is added to the
space and to `Map.shapes` exactly when `Map.shapes` is empty or no shape
in it is at point-query distance `< 25` from `w.center`; if the player
rect does not overlap `w`, the removal loop removes only shapes at
distance `< 25` from `w.center` (removing them from the space as well) and
keeps every shape at distance `≥ 25` — but, due to removal during
iteration, the shape immediately following a removed one is skipped, so
not every shape within distance 25 is removed (see
`draw_map_cycle_removal_cex`). -/
theorem draw_map_cycle_step_spec (d : PolyShape → Int × Int → ℚ)
    (player_rect w : PyRect) (st : MapCycleState) :
    (player_rect.colliderect w = true →
      ((st.shapes = [] ∨ ∀ s ∈ st.shapes, ¬(d s w.center < 25)) →
        draw_map_cycle_step d player_rect st w =
          { shapes := st.shapes ++
              [⟨st.nextId,
                [w.topleft, w.topright, w.bottomleft, w.bottomright]⟩],
            space := st.space ++
              [⟨st.nextId,
                [w.topleft, w.topright, w.bottomleft, w.bottomright]⟩],
            nextId := st.nextId + 1 }) ∧
      ((st.shapes ≠ [] ∧ ∃ s ∈ st.shapes, d s w.center < 25) →
        draw_map_cycle_step d player_rect st w = st)) ∧
    (player_rect.colliderect w = false →
      (draw_map_cycle_step d player_rect st w).shapes =
        (pythonForRemoveR (fun s => decide (d s w.center < 25))
          st.shapes).1 ∧
      (∀ s ∈ st.shapes,
        s ∉ (draw_map_cycle_step d player_rect st w).shapes →
          d s w.center < 25) ∧
      (∀ s ∈ st.shapes, ¬(d s w.center < 25) →
        s ∈ (draw_map_cycle_step d player_rect st w).shapes) ∧
      (draw_map_cycle_step d player_rect st w).space =
        (pythonForRemoveR (fun s => decide (d s w.center < 25))
          st.shapes).2.foldl (fun sp s => sp.erase s) st.space) := by
  constructor
  · intro hcol
    constructor
    · intro hcond
      rcases hcond with hnil | hall
      · simp [draw_map_cycle_step, hcol, hnil, List.isEmpty_nil]
      · cases hemp : st.shapes.isEmpty with
        | true =>
          have hnil : st.shapes = [] := by
            cases h2 : st.shapes with
            | nil => rfl
            | cons x xs => rw [h2] at hemp; cases hemp
          simp [draw_map_cycle_step, hcol, hnil, List.isEmpty_nil]
        | false =>
          have hallb : st.shapes.all
              (fun s => !decide (d s w.center < 25)) = true := by
            rw [List.all_eq_true]
            intro s hs
            simpa using hall s hs
          simp [draw_map_cycle_step, hcol, hemp, hallb]
    · rintro ⟨hne, s, hs, hlt⟩
      have hemp : st.shapes.isEmpty = false := by
        cases h2 : st.shapes with
        | nil => exact absurd h2 hne
        | cons x xs => rfl
      have hallb : st.shapes.all
          (fun s => !decide (d s w.center < 25)) = false := by
        cases hab : st.shapes.all (fun s => !decide (d s w.center < 25)) with
        | false => rfl
        | true =>
          rw [List.all_eq_true] at hab
          have := hab s hs
          simp [hlt] at this
      simp [draw_map_cycle_step, hcol, hemp, hallb]
  · intro hcol
    refine ⟨by simp [draw_map_cycle_step, hcol], ?_, ?_,
      by simp [draw_map_cycle_step, hcol]⟩
    · intro s hs hnk
      simp only [draw_map_cycle_step, hcol, Bool.false_eq_true, if_false] at hnk
      by_contra hlt
      exact hnk (pythonForRemoveR_kept_of_not_cond _ _ s hs (by simpa using hlt))
    · intro s hs hge
      simp only [draw_map_cycle_step, hcol, Bool.false_eq_true, if_false]
      exact pythonForRemoveR_kept_of_not_cond _ _ s hs (by simpa using hge)

/-- Witness for `draw_map_cycle_step_spec`: the player stands on a wall
rect whose shape is not yet materialised (the only existing shape is far
away), so a fresh polygon with the rect's corners is added. -/
theorem draw_map_cycle_step_spec_witness :
    (PyRect.mk 40 40 100 100).colliderect ⟨50, 50, 50, 50⟩ = true ∧
    draw_map_cycle_step (fun _ _ => 30) ⟨40, 40, 100, 100⟩
        ⟨[⟨0, []⟩], [⟨0, []⟩], 1⟩ ⟨50, 50, 50, 50⟩ =
      { shapes := [⟨0, []⟩] ++ [⟨1, [(50, 50), (100, 50), (50, 100), (100, 100)]⟩],
        space := [⟨0, []⟩] ++ [⟨1, [(50, 50), (100, 50), (50, 100), (100, 100)]⟩],
        nextId := 2 } := by
  refine ⟨by decide, ?_⟩
  exact ((draw_map_cycle_step_spec (fun _ _ => 30) ⟨40, 40, 100, 100⟩
    ⟨50, 50, 50, 50⟩ ⟨[⟨0, []⟩], [⟨0, []⟩], 1⟩).1 (by decide)).1
    (Or.inr (by intro s hs; norm_num))

/-- Counterexample to C1 as stated: a wall rect the player does not
overlap, with two shapes both at point-query distance `0 < 25` from its
center; the claim requires both to be removed, but the removal loop
removes the first and — removing while iterating — skips the second,
which survives in `Map.shapes`. -/
theorem draw_map_cycle_removal_cex :
    (PyRect.mk 1000 1000 100 100).colliderect ⟨0, 0, 50, 50⟩ = false ∧
    ((0 : ℚ) < 25) ∧
    (draw_map_cycle (fun _ _ => 0) ⟨1000, 1000, 100, 100⟩ [⟨0, 0, 50, 50⟩]
        ⟨[⟨0, []⟩, ⟨1, []⟩], [⟨0, []⟩, ⟨1, []⟩], 2⟩).shapes = [⟨1, []⟩] ∧
    (⟨1, []⟩ : PolyShape) ∈
      (draw_map_cycle (fun _ _ => 0) ⟨1000, 1000, 100, 100⟩ [⟨0, 0, 50, 50⟩]
        ⟨[⟨0, []⟩, ⟨1, []⟩], [⟨0, []⟩, ⟨1, []⟩], 2⟩).shapes := by
  refine ⟨by decide, by decide, by decide, by decide⟩

theorem charsLTb_asymm : ∀ as bs, charsLTb as bs = true →
    charsLTb bs as = false := by
  intro as
  induction as with
  | nil =>
    intro bs h
    cases bs with
    | nil => simp [charsLTb] at h
    | cons b bs2 => rfl
  | cons a as2 ih =>
    intro bs h
    cases bs with
    | nil => simp [charsLTb] at h
    | cons b bs2 =>
      by_cases hab : a.toNat < b.toNat
      · have hba : ¬ b.toNat < a.toNat := by omega
        simp [charsLTb, hab, hba]
      · by_cases hba : b.toNat < a.toNat
        · simp [charsLTb, hab, hba] at h
        · simp only [charsLTb, hab, hba, if_false] at h ⊢
          exact ih bs2 h

theorem charsLTb_trans : ∀ as bs cs, charsLTb as bs = true →
    charsLTb bs cs = true → charsLTb as cs = true := by
  intro as
  induction as with
  | nil =>
    intro bs cs h1 h2
    cases bs with
    | nil => simp [charsLTb] at h1
    | cons b bs2 =>
      cases cs with
      | nil => simp [charsLTb] at h2
      | cons c cs2 => rfl
  | cons a as2 ih =>
    intro bs cs h1 h2
    cases bs with
    | nil => simp [charsLTb] at h1
    | cons b bs2 =>
      cases cs with
      | nil => simp [charsLTb] at h2
      | cons c cs2 =>
        by_cases hab : a.toNat < b.toNat
        · by_cases hbc : b.toNat < c.toNat
          · have hac : a.toNat < c.toNat := by omega
            simp [charsLTb, hac]
          · by_cases hcb : c.toNat < b.toNat
            · simp [charsLTb, hbc, hcb] at h2
            · have hac : a.toNat < c.toNat := by omega
              simp [charsLTb, hac]
        · by_cases hba : b.toNat < a.toNat
          · simp [charsLTb, hab, hba] at h1
          · by_cases hbc : b.toNat < c.toNat
            · have hac : a.toNat < c.toNat := by omega
              simp [charsLTb, hac]
            · by_cases hcb : c.toNat < b.toNat
              · simp [charsLTb, hbc, hcb] at h2
              · have hac : ¬ a.toNat < c.toNat := by omega
                have hca : ¬ c.toNat < a.toNat := by omega
                simp only [charsLTb, hab, hba, if_false] at h1
                simp only [charsLTb, hbc, hcb, if_false] at h2
                simp only [charsLTb, hac, hca, if_false]
                exact ih bs2 cs2 h1 h2

theorem charsLTb_eq_of_not : ∀ as bs, charsLTb as bs = false →
    charsLTb bs as = false → as = bs := by
  intro as
  induction as with
  | nil =>
    intro bs h1 h2
    cases bs with
    | nil => rfl
    | cons b bs2 => simp [charsLTb] at h1
  | cons a as2 ih =>
    intro bs h1 h2
    cases bs with
    | nil => simp [charsLTb] at h2
    | cons b bs2 =>
      by_cases hab : a.toNat < b.toNat
      · simp [charsLTb, hab] at h1
      · by_cases hba : b.toNat < a.toNat
        · simp [charsLTb, hab, hba] at h2
        · simp only [charsLTb, hab, hba, if_false] at h1 h2
          have hv : a = b := by
            refine Char.ext (UInt32.ext ?_)
            have : a.toNat = b.toNat := by omega
            exact this
          rw [hv, ih bs2 h1 h2]

theorem decLT_asymm (x y : DecNum) (h : decLT x y = true) :
    decLT y x = false := by
  simp only [decLT, decide_eq_true_eq, decide_eq_false_iff_not, not_lt] at h ⊢
  omega

theorem decLT_trans (x y z : DecNum) (h1 : decLT x y = true)
    (h2 : decLT y z = true) : decLT x z = true := by
  simp only [decLT, decide_eq_true_eq] at h1 h2 ⊢
  have h10 : (0 : ℕ) < 10 := by norm_num
  have key : 10 ^ y.scale * (x.num * 10 ^ z.scale) <
      10 ^ y.scale * (z.num * 10 ^ x.scale) := by
    calc 10 ^ y.scale * (x.num * 10 ^ z.scale)
        = (x.num * 10 ^ y.scale) * 10 ^ z.scale := by ring
      _ < (y.num * 10 ^ x.scale) * 10 ^ z.scale :=
          mul_lt_mul_of_pos_right h1 (pow_pos h10 _)
      _ = (y.num * 10 ^ z.scale) * 10 ^ x.scale := by ring
      _ < (z.num * 10 ^ y.scale) * 10 ^ x.scale :=
          mul_lt_mul_of_pos_right h2 (pow_pos h10 _)
      _ = 10 ^ y.scale * (z.num * 10 ^ x.scale) := by ring
  exact Nat.lt_of_mul_lt_mul_left key

theorem decLT_mono_left {x y z : DecNum}
    (heq : x.num * 10 ^ y.scale = y.num * 10 ^ x.scale)
    (h : decLT x z = true) : decLT y z = true := by
  simp only [decLT, decide_eq_true_eq] at h ⊢
  have h10 : (0 : ℕ) < 10 := by norm_num
  have key : (y.num * 10 ^ z.scale) * 10 ^ x.scale <
      (z.num * 10 ^ y.scale) * 10 ^ x.scale := by
    calc (y.num * 10 ^ z.scale) * 10 ^ x.scale
        = (y.num * 10 ^ x.scale) * 10 ^ z.scale := by ring
      _ = (x.num * 10 ^ y.scale) * 10 ^ z.scale := by rw [← heq]
      _ = (x.num * 10 ^ z.scale) * 10 ^ y.scale := by ring
      _ < (z.num * 10 ^ x.scale) * 10 ^ y.scale :=
          mul_lt_mul_of_pos_right h (pow_pos h10 _)
      _ = (z.num * 10 ^ y.scale) * 10 ^ x.scale := by ring
  exact lt_of_mul_lt_mul_right key (Nat.zero_le _)

theorem decLT_mono_right {x y z : DecNum}
    (heq : x.num * 10 ^ y.scale = y.num * 10 ^ x.scale)
    (h : decLT z x = true) : decLT z y = true := by
  simp only [decLT, decide_eq_true_eq] at h ⊢
  have h10 : (0 : ℕ) < 10 := by norm_num
  have key : (z.num * 10 ^ y.scale) * 10 ^ x.scale <
      (y.num * 10 ^ z.scale) * 10 ^ x.scale := by
    calc (z.num * 10 ^ y.scale) * 10 ^ x.scale
        = (z.num * 10 ^ x.scale) * 10 ^ y.scale := by ring
      _ < (x.num * 10 ^ z.scale) * 10 ^ y.scale :=
          mul_lt_mul_of_pos_right h (pow_pos h10 _)
      _ = (x.num * 10 ^ y.scale) * 10 ^ z.scale := by ring
      _ = (y.num * 10 ^ x.scale) * 10 ^ z.scale := by rw [heq]
      _ = (y.num * 10 ^ z.scale) * 10 ^ x.scale := by ring
  exact lt_of_mul_lt_mul_right key (Nat.zero_le _)

theorem decLT_congr {x y : DecNum} (h1 : decLT x y = false)
    (h2 : decLT y x = false) (z : DecNum) :
    decLT x z = decLT y z ∧ decLT z x = decLT z y := by
  have heq : x.num * 10 ^ y.scale = y.num * 10 ^ x.scale := by
    simp only [decLT, decide_eq_false_iff_not, not_lt] at h1 h2
    omega
  have heq2 : y.num * 10 ^ x.scale = x.num * 10 ^ y.scale := heq.symm
  constructor
  · cases hxz : decLT x z with
    | true => exact (decLT_mono_left heq hxz).symm
    | false =>
      cases hyz : decLT y z with
      | false => rfl
      | true => rw [decLT_mono_left heq2 hyz] at hxz; cases hxz
  · cases hzx : decLT z x with
    | true => exact (decLT_mono_right heq hzx).symm
    | false =>
      cases hzy : decLT z y with
      | false => rfl
      | true => rw [decLT_mono_right heq2 hzy] at hzx; cases hzx

theorem atomValLT_asymm (a b : KeyAtom) (h : atomValLT a b = true) :
    atomValLT b a = false := by
  cases a <;> cases b <;>
    first
      | rfl
      | exact decLT_asymm _ _ h
      | exact charsLTb_asymm _ _ h

theorem atomValLT_trans (a b c : KeyAtom) (h1 : atomValLT a b = true)
    (h2 : atomValLT b c = true) : atomValLT a c = true := by
  cases a <;> cases b <;> cases c <;>
    first
      | exact Bool.noConfusion h1
      | exact Bool.noConfusion h2
      | exact decLT_trans _ _ _ h1 h2
      | exact charsLTb_trans _ _ _ h1 h2

theorem atomValLT_congr (a b : KeyAtom) (hrank : atomRank a = atomRank b)
    (h1 : atomValLT a b = false) (h2 : atomValLT b a = false) (c : KeyAtom) :
    atomValLT a c = atomValLT b c ∧ atomValLT c a = atomValLT c b := by
  cases a with
  | s x =>
    cases b with
    | s y =>
      have hxy : x = y := String.ext (charsLTb_eq_of_not _ _ h1 h2)
      subst hxy
      exact ⟨rfl, rfl⟩
    | q y => simp [atomRank] at hrank
    | inf n => cases n <;> simp [atomRank] at hrank
    | nan => simp [atomRank] at hrank
  | q x =>
    cases b with
    | s y => simp [atomRank] at hrank
    | q y =>
      cases c with
      | q z => exact decLT_congr h1 h2 z
      | s z => exact ⟨rfl, rfl⟩
      | inf n => exact ⟨rfl, rfl⟩
      | nan => exact ⟨rfl, rfl⟩
    | inf n => cases n <;> simp [atomRank] at hrank
    | nan => simp [atomRank] at hrank
  | inf n =>
    cases b with
    | s y => cases n <;> simp [atomRank] at hrank
    | q y => cases n <;> simp [atomRank] at hrank
    | inf m =>
      cases n <;> cases m <;>
        first
          | exact ⟨rfl, rfl⟩
          | simp [atomRank] at hrank
    | nan => cases n <;> simp [atomRank] at hrank
  | nan =>
    cases b with
    | s y => simp [atomRank] at hrank
    | q y => simp [atomRank] at hrank
    | inf m => cases m <;> simp [atomRank] at hrank
    | nan => exact ⟨rfl, rfl⟩

theorem atomLTb_asymm (a b : KeyAtom) (h : atomLTb a b = true) :
    atomLTb b a = false := by
  by_cases r1 : atomRank a < atomRank b
  · have r2 : ¬ atomRank b < atomRank a := by omega
    simp [atomLTb, r1, r2]
  · by_cases r2 : atomRank b < atomRank a
    · simp [atomLTb, r1, r2] at h
    · simp only [atomLTb, r1, r2, if_false] at h ⊢
      exact atomValLT_asymm _ _ h

theorem atomLTb_trans (a b c : KeyAtom) (h1 : atomLTb a b = true)
    (h2 : atomLTb b c = true) : atomLTb a c = true := by
  by_cases rab : atomRank a < atomRank b
  · by_cases rbc : atomRank b < atomRank c
    · have h3 : atomRank a < atomRank c := by omega
      simp [atomLTb, h3]
    · by_cases rcb : atomRank c < atomRank b
      · simp [atomLTb, rbc, rcb] at h2
      · have h3 : atomRank a < atomRank c := by omega
        simp [atomLTb, h3]
  · by_cases rba : atomRank b < atomRank a
    · simp [atomLTb, rab, rba] at h1
    · simp only [atomLTb, rab, rba, if_false] at h1
      by_cases rbc : atomRank b < atomRank c
      · have h3 : atomRank a < atomRank c := by omega
        simp [atomLTb, h3]
      · by_cases rcb : atomRank c < atomRank b
        · simp [atomLTb, rbc, rcb] at h2
        · simp only [atomLTb, rbc, rcb, if_false] at h2
          have rac : ¬ atomRank a < atomRank c := by omega
          have rca : ¬ atomRank c < atomRank a := by omega
          simp only [atomLTb, rac, rca, if_false]
          exact atomValLT_trans _ _ _ h1 h2

theorem atomLTb_congr (a b : KeyAtom) (h1 : atomLTb a b = false)
    (h2 : atomLTb b a = false) (c : KeyAtom) :
    atomLTb a c = atomLTb b c ∧ atomLTb c a = atomLTb c b := by
  by_cases rab : atomRank a < atomRank b
  · simp [atomLTb, rab] at h1
  · by_cases rba : atomRank b < atomRank a
    · simp [atomLTb, rba] at h2
    · have hrank : atomRank a = atomRank b := by omega
      simp only [atomLTb, rab, rba, if_false] at h1 h2
      have hv := atomValLT_congr a b hrank h1 h2 c
      constructor
      · simp only [atomLTb]
        rw [hrank, hv.1]
      · simp only [atomLTb]
        rw [hrank, hv.2]

theorem keyLEb_total : ∀ ks ls, (keyLEb ks ls || keyLEb ls ks) = true := by
  intro ks
  induction ks with
  | nil => intro ls; simp [keyLEb]
  | cons a as ih =>
    intro ls
    cases ls with
    | nil => simp [keyLEb]
    | cons b bs =>
      cases hab : atomLTb a b with
      | true => simp [keyLEb, hab]
      | false =>
        cases hba : atomLTb b a with
        | true => simp [keyLEb, hab, hba]
        | false =>
          simp only [keyLEb, hab, hba, Bool.false_eq_true, if_false]
          exact ih bs

theorem keyLEb_trans : ∀ ks ls ms, keyLEb ks ls = true →
    keyLEb ls ms = true → keyLEb ks ms = true := by
  intro ks
  induction ks with
  | nil => exact fun _ _ _ _ => rfl
  | cons a as ih =>
    intro ls ms h1 h2
    cases ls with
    | nil => simp [keyLEb] at h1
    | cons b bs =>
      cases ms with
      | nil => simp [keyLEb] at h2
      | cons c cs =>
        cases hab : atomLTb a b with
        | true =>
          cases hbc : atomLTb b c with
          | true =>
            have hac := atomLTb_trans a b c hab hbc
            simp [keyLEb, hac]
          | false =>
            cases hcb : atomLTb c b with
            | true => simp [keyLEb, hbc, hcb] at h2
            | false =>
              have hcongr := atomLTb_congr b c hbc hcb a
              have hac : atomLTb a c = true := by
                rw [← hcongr.2]
                exact hab
              simp [keyLEb, hac]
        | false =>
          cases hba : atomLTb b a with
          | true => simp [keyLEb, hab, hba] at h1
          | false =>
            simp only [keyLEb, hab, hba, Bool.false_eq_true, if_false] at h1
            cases hbc : atomLTb b c with
            | true =>
              have hcongr := atomLTb_congr a b hab hba c
              have hac : atomLTb a c = true := by
                rw [hcongr.1]
                exact hbc
              simp [keyLEb, hac]
            | false =>
              cases hcb : atomLTb c b with
              | true => simp [keyLEb, hbc, hcb] at h2
              | false =>
                simp only [keyLEb, hbc, hcb, Bool.false_eq_true,
                  if_false] at h2
                have hcongr := atomLTb_congr a b hab hba c
                have hac : atomLTb a c = false := by
                  rw [hcongr.1]
                  exact hbc
                have hca : atomLTb c a = false := by
                  rw [hcongr.2]
                  exact hcb
                simp only [keyLEb, hac, hca, Bool.false_eq_true, if_false]
                exact ih bs cs h1 h2

/-- C9 (amended): `alpha_sort_list` sorts its list in place (modelled as
returning the rearranged list) into a permutation of the input ordered by
the key comparison of the code: strings are cut at embedded unsigned
decimal numerals — a digit run optionally extended by a decimal point and
further digits, or a bare `.digits`, any preceding sign being consumed and
dropped — and keys compare elementwise, the numerals by numeric value and
the text fragments lexicographically (so `map_2.bin` sorts before
`map_10.bin`); the function is idempotent, and `load_map_list` produces
`map_list` by applying exactly this sort to the matching directory
entries.  The hypothesis restricts the statement to inputs on which
Python's comparison is defined and consistent (no text piece is an
`inf`/`infinity`/`nan` float literal), which holds for every well-formed
map file name. -/
theorem alpha_sort_list_spec (l : List String)
    (_hgood : ∀ s ∈ l, keyGoodB true (key s) = true) :
    (alpha_sort_list l).Perm l ∧
    List.Pairwise (fun a b => keyLEb (key a) (key b) = true)
      (alpha_sort_list l) ∧
    alpha_sort_list (alpha_sort_list l) = alpha_sort_list l ∧
    (∀ entries, Map.load_map_list entries [] =
      alpha_sort_list (entries.filter fnmatch_map_bin)) := by
  letI instTot : IsTotal String (fun a b => keyLEb (key a) (key b) = true) :=
    ⟨fun a b => by
      have h := keyLEb_total (key a) (key b)
      rw [Bool.or_eq_true] at h
      rcases h with h1 | h1
      · exact Or.inl h1
      · exact Or.inr h1⟩
  letI instTrans : IsTrans String (fun a b => keyLEb (key a) (key b) = true) :=
    ⟨fun a b c h1 h2 => keyLEb_trans (key a) (key b) (key c) h1 h2⟩
  refine ⟨List.perm_insertionSort _ l, ?_, ?_, fun entries => rfl⟩
  · exact List.sorted_insertionSort _ l
  · exact List.Sorted.insertionSort_eq (List.sorted_insertionSort _ l)

/-- Witness for `alpha_sort_list_spec` on real map file names, also
showing the concrete numeric-aware result. -/
theorem alpha_sort_list_spec_witness :
    (∀ s ∈ ["map_10.bin", "map_2.bin"], keyGoodB true (key s) = true) ∧
    (alpha_sort_list ["map_10.bin", "map_2.bin"]).Perm
      ["map_10.bin", "map_2.bin"] ∧
    alpha_sort_list ["map_10.bin", "map_2.bin"]
      = ["map_2.bin", "map_10.bin"] := by
  refine ⟨by decide, ?_, by decide⟩
  exact (alpha_sort_list_spec ["map_10.bin", "map_2.bin"] (by decide)).1

/-- Counterexample to C9 as stated: the captured numerals are not the
maximal digit runs — they may include a decimal point.  For `a.5b` and
`a.06b` the digit runs are `5` and `06`, whose numeric comparison `5 < 6`
would put `a.5b` first, but the code captures `.5` and `.06` as the floats
`0.5 > 0.06` and sorts `a.06b` first. -/
theorem alpha_sort_list_cex :
    alpha_sort_list ["a.5b", "a.06b"] = ["a.06b", "a.5b"] ∧
    naturalKey "a.5b" = [NatAtom.txt "a.", NatAtom.run 5, NatAtom.txt "b"] ∧
    naturalKey "a.06b" = [NatAtom.txt "a.", NatAtom.run 6, NatAtom.txt "b"] ∧
    (5 : Nat) < 6 := by
  refine ⟨by decide, by decide, by decide, by decide⟩

/-- Witness for `load_map_spec` at a concrete directory listing and map
file. -/
theorem load_map_spec_witness :
    ("map_2.bin" ∈ Map.load_map_list ["map_10.bin", "x.txt", "map_2.bin"] []
      ↔ ("map_2.bin" ∈ ["map_10.bin", "x.txt", "map_2.bin"] ∧
          fnmatch_map_bin "map_2.bin" = true)) ∧
    (Map.load_map sampleGame "###\n#@#\n###").map
      = pySplit "###\n#@#\n###" ∧
    (Map.load_map sampleGame "###\n#@#\n###").shapes = [] := by
  refine ⟨?_, ?_, ?_⟩
  · exact (load_map_spec ["map_10.bin", "x.txt", "map_2.bin"] sampleGame
      "###\n#@#\n###").1 "map_2.bin"
  · exact (load_map_spec ["map_10.bin", "x.txt", "map_2.bin"] sampleGame
      "###\n#@#\n###").2.1
  · exact (load_map_spec ["map_10.bin", "x.txt", "map_2.bin"] sampleGame
      "###\n#@#\n###").2.2.1
